import Mathlib

/-!
Verification development for the make_timestamps_srt program: a tool that
converts an exported Premiere (XMEML) sequence into an SRT subtitle file whose
captions carry the capture timestamp of each clip on the first video track.

The Python source is shallowly embedded below. Pure functions become Lean
functions over Nat / Int / Rat / String; the external exiftool process and the
ambient local timezone are passed in as explicit parameters; file effects are
modelled as an explicit list of write operations. Python float arithmetic in
frames_to_tc_ms is modelled by exact rational arithmetic.
-/

/-! ### Small helpers shared by the embedding -/

/-- Digit value of an ASCII digit character. -/
def dv (c : Char) : ℤ := ((c.toNat - 48 : ℕ) : ℤ)

/-- Whitespace set of the Python str.strip / regex backslash-s class
(ASCII part). -/
def pyIsSpace (c : Char) : Bool :=
  c = ' ' || c = '\t' || c = '\n' || c = '\r' || c = '\x0b' || c = '\x0c'

/-- Python str.strip(): remove leading and trailing whitespace. -/
def pyStrip (s : String) : String :=
  String.mk (((s.data.dropWhile pyIsSpace).reverse.dropWhile pyIsSpace).reverse)

/-- Python str.startswith for a literal prefix. -/
def pyStartsWith (s p : String) : Bool := p.data.isPrefixOf s.data

/-- Python str.endswith for a literal suffix. -/
def pyEndsWith (s p : String) : Bool := p.data.isSuffixOf s.data

/-- Python str.lower (ASCII letters, which is all the program compares). -/
def pyLower (s : String) : String := String.mk (s.data.map Char.toLower)

/-- Python int(string): optional surrounding whitespace, optional sign, a
nonempty run of decimal digits. (Underscore separators and non-ASCII digits,
which Python also accepts, never occur in the documents involved and are not
modelled.) Returns none where Python int() raises. -/
def digitsVal : List Char → Option ℕ
  | [] => none
  | cs => if cs.all Char.isDigit then
      some (cs.foldl (fun a c => a * 10 + (c.toNat - 48)) 0)
    else none

def pyParseInt (s : String) : Option ℤ :=
  match (pyStrip s).data with
  | '+' :: r => (digitsVal r).map (fun n => (n : ℤ))
  | '-' :: r => (digitsVal r).map (fun n => -(n : ℤ))
  | r => (digitsVal r).map (fun n => (n : ℤ))

/-- Decimal string of a nonnegative integer, via Nat repr; negative integers
get a leading minus sign. -/
def intToStr (n : ℤ) : String :=
  if n < 0 then "-" ++ toString (-n).toNat else toString n.toNat

/-- Left pad a string with zeros to width w. -/
def zeroPad (w : ℕ) (s : String) : String :=
  String.mk (List.replicate (w - s.length) '0') ++ s

/-- Python format spec 0wd applied to an integer (sign before the padding). -/
def pyFmtD (w : ℕ) (n : ℤ) : String :=
  if n < 0 then "-" ++ zeroPad (w - 1) (toString (-n).toNat)
  else zeroPad w (toString n.toNat)

/-- Zero padded rendering of a natural number, the form used in the spec
formulas. -/
def specPad (w : ℕ) (n : ℕ) : String := zeroPad w (toString n)

/-! ### Exact rational stand-ins for the Python float operations -/

/-- Floor of a rational number, computably. -/
def ratFloor (q : ℚ) : ℤ := q.num / (q.den : ℤ)

theorem ratFloor_eq_floor (q : ℚ) : ratFloor q = ⌊q⌋ := by
  rw [ratFloor, ← Rat.floor_intCast_div_natCast q.num q.den, Rat.num_div_den]

theorem ratFloor_nonneg {q : ℚ} (h : 0 ≤ q) : 0 ≤ ratFloor q := by
  rw [ratFloor_eq_floor]; exact Int.floor_nonneg.mpr h

theorem ratFloor_le (q : ℚ) : (ratFloor q : ℚ) ≤ q := by
  rw [ratFloor_eq_floor]; exact Int.floor_le q

/-- Python int() applied to a (real) number: truncation toward zero. -/
def pyIntTrunc (q : ℚ) : ℤ :=
  if 0 ≤ q then ratFloor q else -(ratFloor (-q))

/-- Python round() applied to a (real) number: nearest integer, ties to the
even integer. -/
def pyRound (q : ℚ) : ℤ :=
  let f := ratFloor q
  let r := q - (f : ℚ)
  if r < 1 / 2 then f
  else if 1 / 2 < r then f + 1
  else if f % 2 = 0 then f else f + 1

theorem pyIntTrunc_of_nonneg {q : ℚ} (h : 0 ≤ q) : pyIntTrunc q = ratFloor q := by
  rw [pyIntTrunc, if_pos h]

theorem pyRound_nonneg {q : ℚ} (h : 0 ≤ q) : 0 ≤ pyRound q := by
  have hf : 0 ≤ ratFloor q := ratFloor_nonneg h
  unfold pyRound
  dsimp only
  split
  · exact hf
  · split
    · omega
    · split
      · exact hf
      · omega

/-! ### Timecode Converter (source function frames_to_tc_ms, lines 88 to 96)

    seconds = frames / fps
    ms = int(round((seconds - int(seconds)) * 1000))
    s = int(seconds)
    hh = s // 3600
    mm = (s % 3600) // 60
    ss = s % 60
    return f"{hh:02d}:{mm:02d}:{ss:02d},{ms:03d}"

Python // and % on ints are floor division and floor modulus, Int.fdiv and
Int.fmod here. Float arithmetic is modelled exactly over the rationals. -/

def frames_to_tc_ms (frames : ℤ) (fps : ℚ) : String :=
  let seconds : ℚ := (frames : ℚ) / fps
  let ms : ℤ := pyRound ((seconds - (pyIntTrunc seconds : ℚ)) * 1000)
  let s : ℤ := pyIntTrunc seconds
  let hh : ℤ := Int.fdiv s 3600
  let mm : ℤ := Int.fdiv (Int.fmod s 3600) 60
  let ss : ℤ := Int.fmod s 60
  pyFmtD 2 hh ++ ":" ++ pyFmtD 2 mm ++ ":" ++ pyFmtD 2 ss ++ "," ++ pyFmtD 3 ms

/-! ### Timeline Parser: sequence rate (source get_sequence_rate, lines 98
to 114). The rate element of the document is modelled as an optional record
of the two optional text fields read by the source. -/

structure RateEl where
  timebase : Option String
  ntsc : Option String
deriving DecidableEq

/-- int(tb) with the broad except of the source: a missing element (None) or
an unparseable string both fall back to 25. -/
def pyParseTB : Option String → Option ℤ
  | none => none
  | some s => pyParseInt s

def get_sequence_rate (rate : Option RateEl) : ℚ :=
  match rate with
  | none => 25
  | some r =>
    let tb : ℤ := (pyParseTB r.timebase).getD 25
    if pyLower ((r.ntsc).getD "") = "true" then
      if tb = 30 then 2997 / 100
      else if tb = 60 then 5994 / 100
      else if tb = 24 then 23976 / 1000
      else (tb : ℚ)
    else (tb : ℚ)

/-! ### Serialization (source main, lines 174 to 204)

The loop appends four lines per cue: the index, the line
start_tc ++ " --> " ++ end_tc, the caption, and an empty line; the file
content is newline.join(lines). Output entries are triples
(start timecode, end timecode, caption). -/

def srtLines : ℕ → List (String × String × String) → List String
  | _, [] => []
  | i, (s, e, c) :: rest =>
    toString i :: (s ++ " --> " ++ e) :: c :: "" :: srtLines (i + 1) rest

/-- Python newline.join of a list of strings. -/
def pyJoinNl : List String → String
  | [] => ""
  | [x] => x
  | x :: y :: rest => x ++ "\n" ++ pyJoinNl (y :: rest)

def srtContent (entries : List (String × String × String)) : String :=
  pyJoinNl (srtLines 1 entries)

/-- Concatenated cue blocks as the source actually renders them: arrow with
spaces, every block ending in a blank line. -/
def cueBlocksSpaced : ℕ → List (String × String × String) → String
  | _, [] => ""
  | i, (s, e, c) :: rest =>
    toString i ++ "\n" ++ s ++ " --> " ++ e ++ "\n" ++ c ++ "\n\n" ++
      cueBlocksSpaced (i + 1) rest

/-- Concatenated cue blocks in the literal form the claim states: the two
timecodes joined by the bare arrow without spaces. -/
def cueBlocksClaim : ℕ → List (String × String × String) → String
  | _, [] => ""
  | i, (s, e, c) :: rest =>
    toString i ++ "\n" ++ s ++ "-->" ++ e ++ "\n" ++ c ++ "\n\n" ++
      cueBlocksClaim (i + 1) rest

/-! Output path derivation (source main, lines 160 to 162), modelling the
posix os.path functions used there. -/

/-- os.path.split: break at the last slash; the head keeps no trailing
slashes unless it consists only of slashes. -/
def pySplit (p : String) : String × String :=
  let rev := p.data.reverse
  let tailRev := rev.takeWhile (fun c => c ≠ '/')
  if tailRev.length = rev.length then ("", p)
  else
    let head := p.data.take (p.data.length - tailRev.length)
    let head2 := if head.all (fun c => c = '/') then head
      else (head.reverse.dropWhile (fun c => c = '/')).reverse
    (String.mk head2, String.mk tailRev.reverse)

def pyDirname (p : String) : String := (pySplit p).1

def pyBasename (p : String) : String := (pySplit p).2

/-- os.path.splitext applied to a base name (no slashes): split at the last
dot, unless every character before that dot is itself a dot. -/
def pySplitextBase (b : String) : String × String :=
  let cs := b.data
  let revExt := cs.reverse.takeWhile (fun c => c ≠ '.')
  if revExt.length = cs.length then (b, "")
  else
    let stemLen := cs.length - revExt.length - 1
    if (cs.take stemLen).all (fun c => c = '.') then (b, "")
    else (String.mk (cs.take stemLen), String.mk (cs.drop stemLen))

/-- os.path.join for two components. -/
def pyJoin (a b : String) : String :=
  if pyStartsWith b "/" then b
  else if a = "" || pyEndsWith a "/" then a ++ b
  else a ++ "/" ++ b

/-- Derived output path: timestamps_ plus the input base name, .srt
extension, in the input directory. -/
def outPath (xmlPath : String) : String :=
  pyJoin (pyDirname xmlPath)
    ("timestamps_" ++ (pySplitextBase (pyBasename xmlPath)).1 ++ ".srt")

/-! ### Timeline Parser: clip gathering (source gather_v1_clips, lines 116
to 150). Elements are modelled as records of the optional text fields and
nested elements the source reads: a clip item has the enabled, start, end
and name texts plus an optional (first) descendant file element; the
document has an optional rate element and an optional video element holding
a list of tracks, each a list of clip items. The XML end field is called
stop here because end is reserved in Lean. -/

structure FileRef where
  name : Option String
  pathurl : Option String
deriving DecidableEq

structure ClipItem where
  enabled : Option String
  start : Option String
  stop : Option String
  name : Option String
  file : Option FileRef
deriving DecidableEq

structure Clip where
  start_frames : ℤ
  end_frames : ℤ
  path : String
  name : String
deriving DecidableEq

structure SeqDoc where
  rate : Option RateEl
  video : Option (List (List ClipItem))
deriving DecidableEq

/-- The enabled skip condition of source line 128:
enabled and enabled.strip() == "FALSE". -/
def enabledTest : Option String → Bool
  | none => false
  | some s => s != "" && pyStrip s == "FALSE"

def isHexDig (c : Char) : Bool :=
  c.isDigit || ('a' ≤ c && c ≤ 'f') || ('A' ≤ c && c ≤ 'F')

def hexVal (c : Char) : ℕ :=
  if c.isDigit then c.toNat - 48
  else if 'a' ≤ c && c ≤ 'f' then c.toNat - 87
  else c.toNat - 55

/-- urllib unquote, byte-wise: a percent sign followed by two hex digits
becomes the character of that byte value; anything else passes through.
(Multi-byte UTF-8 escape sequences decode to the same byte values; the
recombination into one code point is not modelled, and no claim depends on
it.) -/
def pctDecode : List Char → List Char
  | [] => []
  | '%' :: a :: b :: rest =>
    if isHexDig a && isHexDig b then
      Char.ofNat (hexVal a * 16 + hexVal b) :: pctDecode rest
    else '%' :: pctDecode (a :: b :: rest)
  | ['%', a] => '%' :: pctDecode [a]
  | ['%'] => ['%']
  | c :: rest => c :: pctDecode rest

/-- The path component of a file URL as urlparse extracts it: drop the
fragment and query, then everything from the first slash after the netloc. -/
def urlPathOf (rest : List Char) : List Char :=
  ((rest.takeWhile (fun c => c ≠ '#')).takeWhile (fun c => c ≠ '?')).dropWhile
    (fun c => c ≠ '/')

/-- Source url_to_path, lines 80 to 86. -/
def url_to_path (u : String) : String :=
  if pyStartsWith u "file://" then String.mk (pctDecode (urlPathOf (u.data.drop 7)))
  else u

/-- Per clip item body of the loop in gather_v1_clips: skip disabled items,
read start, end, the file element path and name, drop the item when start,
end or path is missing or non numeric. -/
def procClip (ci : ClipItem) : Option Clip :=
  if enabledTest ci.enabled then none
  else
    let pathurl := ci.file.bind (fun f => f.pathurl)
    let nm : Option String := match ci.file with
      | some f => f.name
      | none => ci.name
    match ci.start, ci.stop, pathurl with
    | some s, some e, some pu =>
      match pyParseInt s, pyParseInt e with
      | some si, some ei =>
        some { start_frames := si, end_frames := ei,
               path := url_to_path pu, name := nm.getD "" }
      | _, _ => none
    | _, _, _ => none

/-- Stable ascending insertion by start frame, the behaviour of the Python
stable sort with key start_frames. -/
def insertByStart (c : Clip) : List Clip → List Clip
  | [] => [c]
  | x :: xs =>
    if c.start_frames ≤ x.start_frames then c :: x :: xs
    else x :: insertByStart c xs

def sortByStart : List Clip → List Clip
  | [] => []
  | x :: xs => insertByStart x (sortByStart xs)

def gather_v1_clips (doc : SeqDoc) : List Clip :=
  match doc.video with
  | none => []
  | some [] => []
  | some (v1 :: _) => sortByStart (v1.filterMap procClip)

/-! ### Timestamp Resolver (source run_exiftool, lines 11 to 46). The
external exiftool process is an oracle parameter mapping a tag and a path
to the stripped stdout of a successful invocation, or none for a failed
one. -/

def exifTags : List String :=
  ["QuickTime:CreateDate", "QuickTime:MediaCreateDate",
   "QuickTime:TrackCreateDate", "QuickTime:ModifyDate",
   "Keys:CreationDate", "System:FileCreateDate", "System:FileModifyDate"]

/-- The tag loop of run_exiftool: first tag whose output is nonempty, does
not end in a colon, and is not a degenerate zero date (starts with 0000 or
equals one of the two all zero forms). -/
def metaFirst (query : String → Option String) : List String → Option String
  | [] => none
  | t :: ts =>
    let out := (query t).getD ""
    if out != "" && !pyEndsWith out ":" then
      if pyStartsWith out "0000" || out == "0000:00:00 00:00:00"
          || out == "0000-00-00 00:00:00" then
        metaFirst query ts
      else some out
    else metaFirst query ts

/-- python path.split("/")[-1]. -/
def lastComponent (p : String) : String :=
  String.mk ((p.data.reverse.takeWhile (fun c => c ≠ '/')).reverse)

def isDash (c : Char) : Bool := c = '-' || c = '_'

def isTimeSep (c : Char) : Bool := c = ':' || c = '.' || c = '-'

def isDateTimeSep (c : Char) : Bool := c = ' ' || c = '_'

/-- One position match of the first filename regex
(20..)[-_](..)[-_](..)[ _](..)[:.-](..)[:.-](..), groups as strings. -/
def matchA (cs : List Char) :
    Option (String × String × String × String × String × String) :=
  match cs with
  | '2' :: '0' :: y1 :: y2 :: s1 :: m1 :: m2 :: s2 :: d1 :: d2 :: s3 ::
      h1 :: h2 :: s4 :: n1 :: n2 :: s5 :: c1 :: c2 :: _ =>
    if y1.isDigit && y2.isDigit && isDash s1 && m1.isDigit && m2.isDigit
        && isDash s2 && d1.isDigit && d2.isDigit && isDateTimeSep s3
        && h1.isDigit && h2.isDigit && isTimeSep s4 && n1.isDigit && n2.isDigit
        && isTimeSep s5 && c1.isDigit && c2.isDigit then
      some (String.mk ['2', '0', y1, y2], String.mk [m1, m2],
        String.mk [d1, d2], String.mk [h1, h2], String.mk [n1, n2],
        String.mk [c1, c2])
    else none
  | _ => none

/-- One position match of the second filename regex
(..)-(..)-(20..)[ _](..)-(..)-(..), groups month, day, year, h, m, s. -/
def matchB (cs : List Char) :
    Option (String × String × String × String × String × String) :=
  match cs with
  | m1 :: m2 :: '-' :: d1 :: d2 :: '-' :: '2' :: '0' :: y1 :: y2 :: s3 ::
      h1 :: h2 :: '-' :: n1 :: n2 :: '-' :: c1 :: c2 :: _ =>
    if m1.isDigit && m2.isDigit && d1.isDigit && d2.isDigit && y1.isDigit
        && y2.isDigit && isDateTimeSep s3 && h1.isDigit && h2.isDigit
        && n1.isDigit && n2.isDigit && c1.isDigit && c2.isDigit then
      some (String.mk [m1, m2], String.mk [d1, d2],
        String.mk ['2', '0', y1, y2], String.mk [h1, h2], String.mk [n1, n2],
        String.mk [c1, c2])
    else none
  | _ => none

/-- re.search for a fixed width pattern: the match at the leftmost position
where one exists. -/
def searchA : List Char →
    Option (String × String × String × String × String × String)
  | [] => none
  | c :: t =>
    match matchA (c :: t) with
    | some g => some g
    | none => searchA t

def searchB : List Char →
    Option (String × String × String × String × String × String)
  | [] => none
  | c :: t =>
    match matchB (c :: t) with
    | some g => some g
    | none => searchB t

/-- The filename fallback of run_exiftool, lines 34 to 46: pattern A on the
last path component, then pattern B; seconds are replaced by 00, pattern B
reorders month-day-year to year-month-day. -/
def filename_fallback (fn : String) : Option String :=
  match searchA fn.data with
  | some (y, mo, d, hh, mins, _secs) =>
    some (y ++ "-" ++ mo ++ "-" ++ d ++ " " ++ hh ++ ":" ++ mins ++ ":00+0000")
  | none =>
    match searchB fn.data with
    | some (mo, d, y, hh, mins, _secs) =>
      some (y ++ "-" ++ mo ++ "-" ++ d ++ " " ++ hh ++ ":" ++ mins ++ ":00+0000")
    | none => none

def run_exiftool (query : String → String → Option String) (path : String) :
    Option String :=
  match metaFirst (fun t => query t path) exifTags with
  | some v => some v
  | none => filename_fallback (lastComponent path)

/-! ### Timestamp Normalizer (source to_local_no_seconds, lines 50 to 78)

strptime is modelled by recursive descent parsers that follow the regexes
the Python TimeRE table builds for the directives used here: %Y is exactly
four digits; %m, %d, %H, %M, %S are the ranged one or two digit
alternations; a literal space in the format matches a nonempty whitespace
run; %z is sign, two hour digits, optional colon, required minutes, then an
optional seconds group with optional fraction, or the letter Z. The value
checks done by the datetime constructor (real day of month, year at least
1, offset under 24 hours) follow the parse. The sub second part of an
offset fraction is dropped; no claim involves it. The datetime library
calendar is modelled as the ideal unbounded proleptic Gregorian calendar. -/

structure PyDateTime where
  year : ℤ
  month : ℤ
  day : ℤ
  hour : ℤ
  minute : ℤ
  second : ℤ
  tzSec : Option ℤ
deriving DecidableEq

def parseY : List Char → Option (ℤ × List Char)
  | a :: b :: c :: d :: r =>
    if a.isDigit && b.isDigit && c.isDigit && d.isDigit then
      some (dv a * 1000 + dv b * 100 + dv c * 10 + dv d, r)
    else none
  | _ => none

def parseMonth : List Char → Option (ℤ × List Char)
  | '1' :: c :: r => if '0' ≤ c && c ≤ '2' then some (10 + dv c, r) else some (1, c :: r)
  | '0' :: c :: r => if '1' ≤ c && c ≤ '9' then some (dv c, r) else none
  | c :: r => if '1' ≤ c && c ≤ '9' then some (dv c, r) else none
  | [] => none

def parseDay : List Char → Option (ℤ × List Char)
  | '3' :: c :: r => if c = '0' || c = '1' then some (30 + dv c, r) else some (3, c :: r)
  | '1' :: c :: r => if c.isDigit then some (10 + dv c, r) else some (1, c :: r)
  | '2' :: c :: r => if c.isDigit then some (20 + dv c, r) else some (2, c :: r)
  | '0' :: c :: r => if '1' ≤ c && c ≤ '9' then some (dv c, r) else none
  | c :: r => if '1' ≤ c && c ≤ '9' then some (dv c, r) else none
  | [] => none

def parseHour : List Char → Option (ℤ × List Char)
  | '2' :: c :: r => if '0' ≤ c && c ≤ '3' then some (20 + dv c, r) else some (2, c :: r)
  | '0' :: c :: r => if c.isDigit then some (dv c, r) else some (0, c :: r)
  | '1' :: c :: r => if c.isDigit then some (10 + dv c, r) else some (1, c :: r)
  | c :: r => if c.isDigit then some (dv c, r) else none
  | [] => none

/-- Minutes and seconds directive: two digits with the first in 0..5, or a
single digit. -/
def parseMS : List Char → Option (ℤ × List Char)
  | a :: b :: r =>
    if ('0' ≤ a && a ≤ '5') && b.isDigit then some (dv a * 10 + dv b, r)
    else if a.isDigit then some (dv a, b :: r)
    else none
  | [a] => if a.isDigit then some (dv a, []) else none
  | [] => none

def parseLit (c : Char) : List Char → Option (List Char)
  | x :: r => if x = c then some r else none
  | [] => none

/-- A literal space in a strptime format matches one or more whitespace
characters. -/
def parseWs : List Char → Option (List Char)
  | c :: r => if pyIsSpace c then some (r.dropWhile pyIsSpace) else none
  | [] => none

def parseZMin : List Char → Option (ℤ × List Char)
  | ':' :: a :: b :: r =>
    if ('0' ≤ a && a ≤ '5') && b.isDigit then some (dv a * 10 + dv b, r) else none
  | a :: b :: r =>
    if ('0' ≤ a && a ≤ '5') && b.isDigit then some (dv a * 10 + dv b, r) else none
  | _ => none

def parseZSecOpt (l : List Char) : ℤ × List Char :=
  match l with
  | ':' :: a :: b :: r =>
    if ('0' ≤ a && a ≤ '5') && b.isDigit then (dv a * 10 + dv b, r) else (0, l)
  | a :: b :: r =>
    if ('0' ≤ a && a ≤ '5') && b.isDigit then (dv a * 10 + dv b, r) else (0, l)
  | _ => (0, l)

def parseFracOpt (l : List Char) : List Char :=
  match l with
  | '.' :: r =>
    let ds := r.takeWhile Char.isDigit
    if 1 ≤ ds.length then r.drop (min ds.length 6) else l
  | _ => l

/-- The %z directive: returns the offset in seconds east of UTC and the
remaining input. -/
def parseZ (l : List Char) : Option (ℤ × List Char) :=
  match l with
  | 'Z' :: r => some (0, r)
  | s :: h1 :: h2 :: r =>
    if (s = '+' || s = '-') && h1.isDigit && h2.isDigit then
      match parseZMin r with
      | none => none
      | some (mins, r2) =>
        let sr := parseZSecOpt r2
        let r4 := parseFracOpt sr.2
        let mag : ℤ := (dv h1 * 10 + dv h2) * 3600 + mins * 60 + sr.1
        some (if s = '-' then -mag else mag, r4)
    else none
  | _ => none

def isLeap (y : ℤ) : Bool := (y % 4 == 0 && y % 100 != 0) || y % 400 == 0

def daysInMonth (y m : ℤ) : ℤ :=
  if m = 2 then (if isLeap y then 29 else 28)
  else if m = 4 || m = 6 || m = 9 || m = 11 then 30
  else 31

def tzOk : Option ℤ → Bool
  | none => true
  | some o => decide (o.natAbs < 86400)

/-- Validation performed by the datetime constructor and the timezone
constructor after a successful regex match. -/
def mkDT (y mo d hh mi s : ℤ) (z : Option ℤ) : Option PyDateTime :=
  if 1 ≤ y ∧ y ≤ 9999 ∧ 1 ≤ mo ∧ mo ≤ 12 ∧ 1 ≤ d ∧ d ≤ daysInMonth y mo
      ∧ 0 ≤ hh ∧ hh ≤ 23 ∧ 0 ≤ mi ∧ mi ≤ 59 ∧ 0 ≤ s ∧ s ≤ 59
      ∧ tzOk z = true then
    some ⟨y, mo, d, hh, mi, s, z⟩
  else none

/-- strptime with "%Y-%m-%d %H:%M:%S%z", requiring the whole string. -/
def parseFmt1 (s : String) : Option PyDateTime := do
  let (y, r1) ← parseY s.data
  let r2 ← parseLit '-' r1
  let (mo, r3) ← parseMonth r2
  let r4 ← parseLit '-' r3
  let (d, r5) ← parseDay r4
  let r6 ← parseWs r5
  let (hh, r7) ← parseHour r6
  let r8 ← parseLit ':' r7
  let (mi, r9) ← parseMS r8
  let r10 ← parseLit ':' r9
  let (sec, r11) ← parseMS r10
  let (z, r12) ← parseZ r11
  if r12 = [] then mkDT y mo d hh mi sec (some z) else none

/-- strptime with "%Y-%m-%d %H:%M%z". -/
def parseFmt2 (s : String) : Option PyDateTime := do
  let (y, r1) ← parseY s.data
  let r2 ← parseLit '-' r1
  let (mo, r3) ← parseMonth r2
  let r4 ← parseLit '-' r3
  let (d, r5) ← parseDay r4
  let r6 ← parseWs r5
  let (hh, r7) ← parseHour r6
  let r8 ← parseLit ':' r7
  let (mi, r9) ← parseMS r8
  let (z, r10) ← parseZ r9
  if r10 = [] then mkDT y mo d hh mi 0 (some z) else none

/-- strptime with "%Y-%m-%d %H:%M:%S" (naive result). -/
def parseFmt3 (s : String) : Option PyDateTime := do
  let (y, r1) ← parseY s.data
  let r2 ← parseLit '-' r1
  let (mo, r3) ← parseMonth r2
  let r4 ← parseLit '-' r3
  let (d, r5) ← parseDay r4
  let r6 ← parseWs r5
  let (hh, r7) ← parseHour r6
  let r8 ← parseLit ':' r7
  let (mi, r9) ← parseMS r8
  let r10 ← parseLit ':' r9
  let (sec, r11) ← parseMS r10
  if r11 = [] then mkDT y mo d hh mi sec none else none

/-- strptime with "%Y-%m-%d %H:%M" (naive result). -/
def parseFmt4 (s : String) : Option PyDateTime := do
  let (y, r1) ← parseY s.data
  let r2 ← parseLit '-' r1
  let (mo, r3) ← parseMonth r2
  let r4 ← parseLit '-' r3
  let (d, r5) ← parseDay r4
  let r6 ← parseWs r5
  let (hh, r7) ← parseHour r6
  let r8 ← parseLit ':' r7
  let (mi, r9) ← parseMS r8
  if r9 = [] then mkDT y mo d hh mi 0 none else none

/-- The format loop of to_local_no_seconds: first format that parses. -/
def tryFormats (s : String) : Option PyDateTime :=
  match parseFmt1 s with
  | some dt => some dt
  | none =>
    match parseFmt2 s with
    | some dt => some dt
    | none =>
      match parseFmt3 s with
      | some dt => some dt
      | none => parseFmt4 s

/-- Days since 1970-01-01 of a proleptic Gregorian civil date. -/
def daysFromCivil (y m d : ℤ) : ℤ :=
  let y2 := if m ≤ 2 then y - 1 else y
  let era := Int.fdiv y2 400
  let yoe := y2 - era * 400
  let mp := Int.fmod (m + 9) 12
  let doy := Int.fdiv (153 * mp + 2) 5 + d - 1
  let doe := yoe * 365 + Int.fdiv yoe 4 - Int.fdiv yoe 100 + doy
  era * 146097 + doe - 719468

/-- Civil date from days since 1970-01-01. -/
def civilFromDays (z0 : ℤ) : ℤ × ℤ × ℤ :=
  let z := z0 + 719468
  let era := Int.fdiv z 146097
  let doe := z - era * 146097
  let yoe := Int.fdiv
    (doe - Int.fdiv doe 1460 + Int.fdiv doe 36524 - Int.fdiv doe 146096) 365
  let y := yoe + era * 400
  let doy := doe - (365 * yoe + Int.fdiv yoe 4 - Int.fdiv yoe 100)
  let mp := Int.fdiv (5 * doy + 2) 153
  let d := doy - Int.fdiv (153 * mp + 2) 5 + 1
  let m := mp + (if mp < 10 then 3 else -9)
  (if m ≤ 2 then y + 1 else y, m, d)

/-- Seconds since the epoch of the wall clock fields, ignoring the offset. -/
def dtToSec (dt : PyDateTime) : ℤ :=
  daysFromCivil dt.year dt.month dt.day * 86400 + dt.hour * 3600
    + dt.minute * 60 + dt.second

def secToYMDHM (t : ℤ) : ℤ × ℤ × ℤ × ℤ × ℤ :=
  let c := civilFromDays (Int.fdiv t 86400)
  let tod := Int.fmod t 86400
  (c.1, c.2.1, c.2.2, Int.fdiv tod 3600, Int.fdiv (Int.fmod tod 3600) 60)

/-- strftime "%Y-%m-%d %H:%M". -/
def fmtYMDHM (x : ℤ × ℤ × ℤ × ℤ × ℤ) : String :=
  pyFmtD 4 x.1 ++ "-" ++ pyFmtD 2 x.2.1 ++ "-" ++ pyFmtD 2 x.2.2.1 ++ " "
    ++ pyFmtD 2 x.2.2.2.1 ++ ":" ++ pyFmtD 2 x.2.2.2.2

/-- Tail of to_local_no_seconds after parsing: a naive value is stamped
UTC (offset 0), the value is shifted to the fixed local offset given in
minutes east of UTC, and rendered without seconds. -/
def localRender (localOffMin : ℤ) (dt : PyDateTime) : String :=
  fmtYMDHM (secToYMDHM (dtToSec dt - (dt.tzSec).getD 0 + localOffMin * 60))

def to_local_no_seconds (localOffMin : ℤ) (dt_str : String) : Option String :=
  if dt_str = "" then none
  else
    match tryFormats dt_str with
    | none => none
    | some dt => some (localRender localOffMin dt)

/-! ### Caption Assembler and main (source main, lines 154 to 206) -/

/-- Per clip caption logic of main, lines 182 to 189. The query oracle maps
a tag and a path to the exiftool output. -/
def clip_caption (query : String → String → Option String) (localOffMin : ℤ)
    (c : Clip) : String :=
  match run_exiftool query c.path with
  | none => "[NO-DATE] " ++ c.name
  | some d =>
    if d = "" then "[NO-DATE] " ++ c.name
    else
      match to_local_no_seconds localOffMin d with
      | some l => if l = "" then d else l
      | none => d

/-- The per clip loop of main: one (start, end, caption) entry per clip, in
order. -/
def buildEntries (query : String → String → Option String) (localOffMin : ℤ)
    (fps : ℚ) (cs : List Clip) : List (String × String × String) :=
  cs.map (fun c => (frames_to_tc_ms c.start_frames fps,
    frames_to_tc_ms c.end_frames fps, clip_caption query localOffMin c))

inductive MainResult
  | usageError
  | parseError
  | noClipsError
  | success
deriving DecidableEq

/-- Exit codes: sys.exit(1) for usage, sys.exit(2) for no clips; the parse
error is an uncaught exception with no explicit code in the source. -/
def mainExitCode : MainResult → Option ℕ
  | .usageError => some 1
  | .parseError => none
  | .noClipsError => some 2
  | .success => some 0

/-- Whole program model. Inputs: argv (argv.head is the program name), the
parse of the document at argv[1] (none when ET.parse raises), the exiftool
oracle and the local offset. Output: the terminal state plus the list of
file writes performed, in order; the single write of the source happens
only on the success path, after the loop over all clips. -/
def pyMain (argv : List String) (doc : Option SeqDoc)
    (query : String → String → Option String) (localOffMin : ℤ) :
    MainResult × List (String × String) :=
  if argv.length < 2 then (.usageError, [])
  else
    let xmlPath := argv.getD 1 ""
    match doc with
    | none => (.parseError, [])
    | some d =>
      let fps := get_sequence_rate d.rate
      let clips := gather_v1_clips d
      if clips = [] then (.noClipsError, [])
      else
        (.success,
          [(outPath xmlPath,
            srtContent (buildEntries query localOffMin fps clips))])

/-- Effect of a list of writes on a file system (a map from path to
content): each write overwrites the previous content of its path. -/
def applyWrites (ws : List (String × String)) (fs : String → Option String) :
    String → Option String :=
  match ws with
  | [] => fs
  | (p, c) :: rest => applyWrites rest (fun q => if q = p then some c else fs q)

/-- The acceptance test on a metadata value exactly as claim C3 words it:
nonempty and not one of the degenerate values, which the claim takes to be
the all zero date and strings ending in 0000 colon. -/
def claimAccepted (s : String) : Bool :=
  s != "" && !(s == "0000-00-00 00:00:00" || pyEndsWith s "0000:")

/-! ### Concrete example documents used in the theorems below -/

def exCiC2 : ClipItem :=
  { enabled := some " FALSE", start := some "0", stop := some "10",
    name := some "clipname",
    file := some { name := some "a.mov", pathurl := some "file:///a.mov" } }

def exDocC2 : SeqDoc := { rate := none, video := some [[exCiC2]] }

def exCiC2b : ClipItem :=
  { enabled := some "TRUE", start := some "0", stop := some "10",
    name := some "clipname",
    file := some { name := some "a.mov", pathurl := some "file:///a.mov" } }

def exDocC2b : SeqDoc := { rate := none, video := some [[exCiC2b]] }

def exCiC4 : ClipItem :=
  { enabled := none, start := some "0", stop := some "10",
    name := some "clip item name",
    file := some { name := none, pathurl := some "file:///v/c.mov" } }

def exDocEmpty : SeqDoc := { rate := none, video := none }

/-! ### Claim C5: behaviour of the timecode converter -/

theorem pyFmtD_natCast (w n : ℕ) : pyFmtD w (n : ℤ) = specPad w n := by
  unfold pyFmtD specPad
  rw [if_neg (by exact_mod_cast Int.not_lt.mpr (Int.natCast_nonneg n))]
  rw [Int.toNat_natCast]

theorem int_fdiv_natCast (T m : ℕ) :
    Int.fdiv (T : ℤ) ((m : ℕ) : ℤ) = ((T / m : ℕ) : ℤ) := by
  rw [Int.fdiv_eq_ediv _ (Int.natCast_nonneg m)]
  exact (Int.natCast_div _ _).symm

theorem int_fmod_natCast (T m : ℕ) :
    Int.fmod (T : ℤ) ((m : ℕ) : ℤ) = ((T % m : ℕ) : ℤ) := by
  rw [Int.fmod_eq_emod _ (Int.natCast_nonneg m)]
  exact (Int.natCast_mod _ _).symm

theorem int_fdiv_natCast_3600 (T : ℕ) :
    Int.fdiv (T : ℤ) 3600 = ((T / 3600 : ℕ) : ℤ) := by
  have := int_fdiv_natCast T 3600
  norm_num at this
  exact this

theorem int_fmod_natCast_3600 (T : ℕ) :
    Int.fmod (T : ℤ) 3600 = ((T % 3600 : ℕ) : ℤ) := by
  have := int_fmod_natCast T 3600
  norm_num at this
  exact this

theorem int_fdiv_natCast_60 (T : ℕ) :
    Int.fdiv (T : ℤ) 60 = ((T / 60 : ℕ) : ℤ) := by
  have := int_fdiv_natCast T 60
  norm_num at this
  exact this

theorem int_fmod_natCast_60 (T : ℕ) :
    Int.fmod (T : ℤ) 60 = ((T % 60 : ℕ) : ℤ) := by
  have := int_fmod_natCast T 60
  norm_num at this
  exact this

/-- C5 (amended): for every nonnegative frame count and positive rate, the
timecode is hh, mm, ss from the floor of frames/rate by the standard 3600/60
decomposition, each zero padded to at least two digits, plus a millisecond
component equal to round-half-even of the fractional part times 1000, zero
padded to at least three digits (the field is not always exactly three
digits: the rounded value can reach 1000). The model floor agrees with the
mathematical floor, and the three example evaluations of the claim hold. -/
theorem frames_to_tc_ms_spec :
    (∀ q : ℚ, ratFloor q = ⌊q⌋)
    ∧ (∀ (frames : ℤ) (fps : ℚ), 0 ≤ frames → 0 < fps →
        frames_to_tc_ms frames fps =
          specPad 2 ((ratFloor ((frames : ℚ) / fps)).toNat / 3600) ++ ":" ++
          specPad 2 ((ratFloor ((frames : ℚ) / fps)).toNat % 3600 / 60) ++ ":" ++
          specPad 2 ((ratFloor ((frames : ℚ) / fps)).toNat % 60) ++ "," ++
          specPad 3 (pyRound (((frames : ℚ) / fps -
            ((ratFloor ((frames : ℚ) / fps)) : ℚ)) * 1000)).toNat)
    ∧ frames_to_tc_ms 0 25 = "00:00:00,000"
    ∧ frames_to_tc_ms 25 25 = "00:00:01,000"
    ∧ frames_to_tc_ms 15 30 = "00:00:00,500" := by
  refine ⟨ratFloor_eq_floor, ?_, by with_unfolding_all rfl,
    by with_unfolding_all rfl, by with_unfolding_all rfl⟩
  intro frames fps h0 hfps
  have hsec : (0 : ℚ) ≤ (frames : ℚ) / fps :=
    div_nonneg (by exact_mod_cast h0) hfps.le
  have htr : pyIntTrunc ((frames : ℚ) / fps) = ratFloor ((frames : ℚ) / fps) :=
    pyIntTrunc_of_nonneg hsec
  have hfl : 0 ≤ ratFloor ((frames : ℚ) / fps) := ratFloor_nonneg hsec
  obtain ⟨X, hX⟩ : ∃ X : ℕ, ratFloor ((frames : ℚ) / fps) = (X : ℤ) :=
    ⟨(ratFloor ((frames : ℚ) / fps)).toNat, (Int.toNat_of_nonneg hfl).symm⟩
  simp only [frames_to_tc_ms, htr, hX, Int.toNat_natCast]
  have hms : 0 ≤ pyRound (((frames : ℚ) / fps - ((X : ℤ) : ℚ)) * 1000) := by
    refine pyRound_nonneg (mul_nonneg (sub_nonneg.mpr ?_) (by norm_num))
    rw [← hX]
    exact ratFloor_le _
  rw [int_fdiv_natCast_3600, int_fmod_natCast_3600, int_fmod_natCast_60,
    int_fdiv_natCast_60]
  rw [← Int.toNat_of_nonneg hms]
  rw [pyFmtD_natCast, pyFmtD_natCast, pyFmtD_natCast, pyFmtD_natCast]
  rw [Int.toNat_natCast]

/-- C5 counterexample to the claim as stated: at frame 989 with the NTSC
rate 29.97 the millisecond field is the four digit string 1000, so the
output does not decompose as two digit fields plus an exactly three digit
millisecond field. -/
theorem frames_to_tc_ms_four_digit_ms :
    frames_to_tc_ms 989 (2997 / 100) = "00:00:32,1000"
    ∧ ¬ (∃ hh mm ss ms : String,
        frames_to_tc_ms 989 (2997 / 100) =
          hh ++ ":" ++ mm ++ ":" ++ ss ++ "," ++ ms
        ∧ hh.length = 2 ∧ mm.length = 2 ∧ ss.length = 2 ∧ ms.length = 3) := by
  have hv : frames_to_tc_ms 989 (2997 / 100) = "00:00:32,1000" := by
    with_unfolding_all rfl
  refine ⟨hv, ?_⟩
  rintro ⟨hh, mm, ss, ms, heq, h1, h2, h3, h4⟩
  rw [hv] at heq
  have := congrArg String.length heq
  simp only [String.length_append, h1, h2, h3, h4] at this
  have hl : ("00:00:32,1000").length = 13 := by decide
  have hc : (":" : String).length = 1 := by decide
  have hcm : ("," : String).length = 1 := by decide
  rw [hl, hc, hcm] at this
  omega

/-! ### Claim C6: sequence rate mapping -/

/-- C6: NTSC flag true with timebase 30, 60, 24 maps to 29.97, 59.94,
23.976; any other parsed timebase passes through as a float; an absent rate
element or unparseable timebase yields 25. -/
theorem get_sequence_rate_spec :
    get_sequence_rate none = 25
    ∧ (∀ r : RateEl, pyParseTB r.timebase = none →
        get_sequence_rate (some r) = 25)
    ∧ (∀ r : RateEl, pyLower ((r.ntsc).getD "") = "true" →
        pyParseTB r.timebase = some 30 →
        get_sequence_rate (some r) = 2997 / 100)
    ∧ (∀ r : RateEl, pyLower ((r.ntsc).getD "") = "true" →
        pyParseTB r.timebase = some 60 →
        get_sequence_rate (some r) = 5994 / 100)
    ∧ (∀ r : RateEl, pyLower ((r.ntsc).getD "") = "true" →
        pyParseTB r.timebase = some 24 →
        get_sequence_rate (some r) = 23976 / 1000)
    ∧ (∀ (r : RateEl) (n : ℤ), pyParseTB r.timebase = some n →
        ¬ (pyLower ((r.ntsc).getD "") = "true" ∧ (n = 30 ∨ n = 60 ∨ n = 24)) →
        get_sequence_rate (some r) = (n : ℚ)) := by
  refine ⟨rfl, ?_, ?_, ?_, ?_, ?_⟩
  · intro r h
    by_cases ht : pyLower ((r.ntsc).getD "") = "true" <;>
      simp [get_sequence_rate, h, ht]
  · intro r ht h; simp [get_sequence_rate, h, ht]
  · intro r ht h; simp [get_sequence_rate, h, ht]
  · intro r ht h; simp [get_sequence_rate, h, ht]
  · intro r n h hnot
    by_cases ht : pyLower ((r.ntsc).getD "") = "true"
    · have h30 : ¬ n = 30 := fun hx => hnot ⟨ht, Or.inl hx⟩
      have h60 : ¬ n = 60 := fun hx => hnot ⟨ht, Or.inr (Or.inl hx)⟩
      have h24 : ¬ n = 24 := fun hx => hnot ⟨ht, Or.inr (Or.inr hx)⟩
      simp [get_sequence_rate, h, ht, h30, h60, h24]
    · simp [get_sequence_rate, h, ht]

/-- C6 witness: concrete evaluations obtained from the theorem. -/
theorem get_sequence_rate_spec_witness :
    get_sequence_rate (some ⟨some "30", some "TRUE"⟩) = 2997 / 100
    ∧ get_sequence_rate (some ⟨some "50", some "true"⟩) = 50 := by
  constructor
  · exact get_sequence_rate_spec.2.2.1 ⟨some "30", some "TRUE"⟩
      (by with_unfolding_all rfl) (by with_unfolding_all rfl)
  · exact get_sequence_rate_spec.2.2.2.2.2 ⟨some "50", some "true"⟩ 50
      (by with_unfolding_all rfl) (by simp)

/-! ### Claim C1: serialized output form and output path -/

theorem str_length_eq_zero_iff (s : String) : s.length = 0 ↔ s = "" := by
  cases s with
  | mk d =>
    constructor
    · intro h
      have hd : d = [] := List.length_eq_zero.mp h
      subst hd
      rfl
    · intro h
      rw [h]
      rfl

theorem str_append_ne_empty_right (a b : String) (h : b ≠ "") : a ++ b ≠ "" := by
  intro he
  have hl := congrArg String.length he
  rw [String.length_append] at hl
  have h0 : ("" : String).length = 0 := rfl
  rw [h0] at hl
  have : b.length = 0 := by omega
  exact h ((str_length_eq_zero_iff b).mp this)

theorem pyJoinNl_cons (a : String) (l : List String) (h : l ≠ []) :
    pyJoinNl (a :: l) = a ++ "\n" ++ pyJoinNl l := by
  cases l with
  | nil => exact absurd rfl h
  | cons y ys => rfl

theorem srtLines_ne_nil (i : ℕ) (e : String × String × String)
    (rest : List (String × String × String)) :
    srtLines i (e :: rest) ≠ [] := by
  obtain ⟨s, e2, c⟩ := e
  simp [srtLines]

theorem nl2_eq : ("\n\n" : String) = "\n" ++ "\n" := rfl

theorem pyJoinNl_srtLines (i : ℕ) (entries : List (String × String × String))
    (h : entries ≠ []) :
    pyJoinNl (srtLines i entries) ++ "\n" = cueBlocksSpaced i entries := by
  induction entries generalizing i with
  | nil => exact absurd rfl h
  | cons e rest ih =>
    obtain ⟨s, e2, c⟩ := e
    cases rest with
    | nil =>
      show pyJoinNl [toString i, s ++ " --> " ++ e2, c, ""] ++ "\n" = _
      simp only [pyJoinNl, cueBlocksSpaced, nl2_eq, String.append_empty,
        String.empty_append, String.append_assoc]
    | cons e3 rest2 =>
      show pyJoinNl (toString i :: (s ++ " --> " ++ e2) :: c :: "" ::
        srtLines (i + 1) (e3 :: rest2)) ++ "\n" = _
      rw [pyJoinNl_cons _ _ (by simp), pyJoinNl_cons _ _ (by simp),
        pyJoinNl_cons _ _ (by simp),
        pyJoinNl_cons _ _ (srtLines_ne_nil (i + 1) e3 rest2)]
      have hrec := ih (i + 1) (by simp)
      show _ = cueBlocksSpaced i ((s, e2, c) :: e3 :: rest2)
      rw [cueBlocksSpaced, ← hrec]
      simp only [nl2_eq, String.append_empty, String.empty_append,
        String.append_assoc]

theorem takeWhile_append_stop {p : Char → Bool} (l1 : List Char) (a : Char)
    (l2 : List Char) (h1 : ∀ x ∈ l1, p x = true) (h2 : p a = false) :
    (l1 ++ a :: l2).takeWhile p = l1 := by
  induction l1 with
  | nil => simp [List.takeWhile_cons, h2]
  | cons x xs ih =>
    have hx := h1 x (by simp)
    simp only [List.cons_append, List.takeWhile_cons, hx, if_true]
    rw [ih (fun y hy => h1 y (by simp [hy]))]

theorem take_append_cons (D : List Char) (a : Char) (l : List Char) :
    (D ++ a :: l).take (D.length + 1) = D ++ [a] := by
  induction D with
  | nil => simp
  | cons x xs ih => simp [List.take_succ_cons, ih]

theorem str_mk_data (s : String) : String.mk s.data = s := by cases s; rfl

theorem pySplit_concat (ds : List Char) (c : Char) (f : String) (hc : c ≠ '/')
    (hslash : ∀ x ∈ f.data, x ≠ '/') :
    pySplit (String.mk (ds ++ [c]) ++ "/" ++ f) = (String.mk (ds ++ [c]), f) := by
  have hdata : (String.mk (ds ++ [c]) ++ "/" ++ f).data
      = (ds ++ [c]) ++ '/' :: f.data := by
    simp [String.data_append]
  have hrev : ((ds ++ [c]) ++ '/' :: f.data).reverse
      = f.data.reverse ++ '/' :: (c :: ds.reverse) := by
    simp [List.reverse_append]
  have htw : (f.data.reverse ++ '/' :: (c :: ds.reverse)).takeWhile
      (fun x => decide (x ≠ '/')) = f.data.reverse :=
    takeWhile_append_stop _ _ _
      (fun x hx => by simp [hslash x (List.mem_reverse.mp hx)])
      (by simp)
  simp only [pySplit, hdata, hrev, htw]
  rw [if_neg (by simp)]
  have hlen : ((ds ++ [c]) ++ '/' :: f.data).length - f.data.reverse.length
      = (ds ++ [c]).length + 1 := by
    simp [List.length_append]
    omega
  rw [hlen, take_append_cons]
  have hall : ((ds ++ [c]) ++ ['/']).all (fun x => decide (x = '/')) = false := by
    simp [List.all_append, hc]
  rw [if_neg (by rw [hall]; simp)]
  have hdw : (((ds ++ [c]) ++ ['/']).reverse.dropWhile (fun x => decide (x = '/')))
      = c :: ds.reverse := by
    simp [List.reverse_append, List.dropWhile_cons, hc]
  rw [hdw]
  simp [str_mk_data]

theorem outPath_concat (ds : List Char) (c : Char) (f : String) (hc : c ≠ '/')
    (hslash : ∀ x ∈ f.data, x ≠ '/') :
    outPath (String.mk (ds ++ [c]) ++ "/" ++ f) =
      String.mk (ds ++ [c]) ++ "/timestamps_" ++ (pySplitextBase f).1 ++ ".srt" := by
  unfold outPath pyDirname pyBasename
  rw [pySplit_concat ds c f hc hslash]
  unfold pyJoin
  have h1 : pyStartsWith ("timestamps_" ++ (pySplitextBase f).1 ++ ".srt") "/"
      = false := by
    unfold pyStartsWith
    rw [String.data_append, String.data_append]
    have hts : ("timestamps_" : String).data = 't' :: "imestamps_".data := rfl
    rw [hts]
    simp [List.isPrefixOf]
  rw [if_neg (by rw [h1]; simp)]
  have h2 : ¬ (String.mk (ds ++ [c]) = "") := by
    intro h
    have := congrArg String.data h
    simp at this
  have h3 : pyEndsWith (String.mk (ds ++ [c])) "/" = false := by
    unfold pyEndsWith
    simp [List.isSuffixOf, List.isPrefixOf, List.reverse_append]
    intro h
    exact absurd h.symm hc
  rw [if_neg (by simp [h2, h3])]
  have h4 : ("/" : String) ++ "timestamps_" = "/timestamps_" := rfl
  simp only [String.append_assoc, ← h4]

/-- C1 (amended): the output document equals the concatenation, in cue
order, of blocks index, newline, start timecode, space arrow space, end
timecode, newline, caption, newline, blank line — except that the very last
block carries a single trailing newline instead of a blank line (the
newline join); the arrow is surrounded by spaces, not the bare arrow of the
claim. The path conjunct: for an input directory/name path the output file
is directory/timestamps_ plus the name without its extension plus .srt, and
a write to that path overwrites existing content. -/
theorem srt_serialization_spec :
    (∀ (i : ℕ) (entries : List (String × String × String)), entries ≠ [] →
        pyJoinNl (srtLines i entries) ++ "\n" = cueBlocksSpaced i entries)
    ∧ (∀ (ds : List Char) (c : Char) (f : String), c ≠ '/' →
        (∀ x ∈ f.data, x ≠ '/') →
        outPath (String.mk (ds ++ [c]) ++ "/" ++ f) =
          String.mk (ds ++ [c]) ++ "/timestamps_" ++
            (pySplitextBase f).1 ++ ".srt")
    ∧ (∀ (fs : String → Option String) (p cont : String),
        applyWrites [(p, cont)] fs p = some cont) := by
  refine ⟨pyJoinNl_srtLines, outPath_concat, ?_⟩
  intro fs p cont
  simp [applyWrites]

/-- C1 counterexample to the claim as stated: already for a single cue the
document text is not the stated block. The arrow carries spaces and the
final blank line separator is absent, so the serialized text differs from
the concatenation of blocks of the claimed literal form. -/
theorem srt_serialization_counterexample :
    srtContent [("00:00:00,000", "00:00:04,000", "clip")] =
        "1\n00:00:00,000 --> 00:00:04,000\nclip\n"
    ∧ cueBlocksClaim 1 [("00:00:00,000", "00:00:04,000", "clip")] =
        "1\n00:00:00,000-->00:00:04,000\nclip\n\n"
    ∧ srtContent [("00:00:00,000", "00:00:04,000", "clip")]
        ≠ cueBlocksClaim 1 [("00:00:00,000", "00:00:04,000", "clip")] := by
  have h1 : srtContent [("00:00:00,000", "00:00:04,000", "clip")] =
      "1\n00:00:00,000 --> 00:00:04,000\nclip\n" := by with_unfolding_all rfl
  have h2 : cueBlocksClaim 1 [("00:00:00,000", "00:00:04,000", "clip")] =
      "1\n00:00:00,000-->00:00:04,000\nclip\n\n" := by with_unfolding_all rfl
  refine ⟨h1, h2, ?_⟩
  rw [h1, h2]
  decide

/-- C1 witness: the amended serialization and path statements applied at
concrete inputs. -/
theorem srt_serialization_spec_witness :
    pyJoinNl (srtLines 1 [("00:00:00,000", "00:00:04,000", "a"),
        ("00:00:04,000", "00:00:10,000", "b")]) ++ "\n"
      = cueBlocksSpaced 1 [("00:00:00,000", "00:00:04,000", "a"),
        ("00:00:04,000", "00:00:10,000", "b")]
    ∧ outPath (String.mk (['d', 'i'] ++ ['r']) ++ "/" ++ "seq.xml")
      = String.mk (['d', 'i'] ++ ['r']) ++ "/timestamps_" ++
          (pySplitextBase "seq.xml").1 ++ ".srt" :=
  ⟨srt_serialization_spec.1 1 _ (by simp),
   srt_serialization_spec.2.1 ['d', 'i'] 'r' "seq.xml" (by decide) (by decide)⟩

/-- C5 witness: the amended statement applied at frames 10, rate 25, where
the right hand side evaluates to 00:00:00,400. -/
theorem frames_to_tc_ms_spec_witness :
    frames_to_tc_ms 10 25 = "00:00:00,400" := by
  have h := frames_to_tc_ms_spec.2.1 10 25 (by decide) (by norm_num)
  rw [h]
  with_unfolding_all rfl

/-! ### Claim C2: the enabled flag filter -/

/-- C2 (amended): a clip item with valid start, end and path is excluded if
and only if its enabled flag is present, nonempty, and equals FALSE after
stripping leading and trailing whitespace. In particular surrounding
whitespace IS tolerated in the exclusion test; absent, empty, TRUE, false
and every other stripped value is included. -/
theorem enabled_filter_spec :
    ∀ (ci : ClipItem) (s e pu : String) (si ei : ℤ),
      ci.start = some s → ci.stop = some e →
      ci.file.bind (fun fr => fr.pathurl) = some pu →
      pyParseInt s = some si → pyParseInt e = some ei →
      (procClip ci = none ↔
        ∃ v, ci.enabled = some v ∧ v ≠ "" ∧ pyStrip v = "FALSE") := by
  intro ci s e pu si ei hs he hpu hsi hei
  by_cases hen : enabledTest ci.enabled = true
  · constructor
    · intro _
      cases hce : ci.enabled with
      | none => rw [hce] at hen; exact absurd hen (by simp [enabledTest])
      | some v =>
        rw [hce] at hen
        simp only [enabledTest, Bool.and_eq_true, bne_iff_ne, beq_iff_eq] at hen
        exact ⟨v, rfl, hen.1, hen.2⟩
    · intro _
      simp [procClip, hen]
  · constructor
    · intro h
      rw [procClip, if_neg hen, hs, he, hpu] at h
      simp only [] at h
      simp [hsi, hei] at h
    · rintro ⟨v, hv, hne, hstrip⟩
      exfalso
      apply hen
      rw [hv]
      simp [enabledTest, hne, hstrip]

/-- C2 counterexample to the claim as stated: the enabled value
space FALSE differs from the exact literal FALSE, so the claim says the
clip is included, but the code strips whitespace before comparing and the
clip is excluded. The identical item with enabled TRUE survives, so the
exclusion is due to the enabled test alone. -/
theorem enabled_filter_counterexample :
    exCiC2.enabled = some " FALSE"
    ∧ (" FALSE" : String) ≠ "FALSE"
    ∧ gather_v1_clips exDocC2 = []
    ∧ gather_v1_clips exDocC2b =
        [{ start_frames := 0, end_frames := 10, path := "/a.mov",
           name := "a.mov" }] := by
  refine ⟨rfl, by decide, ?_, ?_⟩
  · with_unfolding_all rfl
  · with_unfolding_all rfl

/-- C2 witness: the amended statement applied to the stripped FALSE item. -/
theorem enabled_filter_spec_witness :
    procClip exCiC2 = none ↔
      ∃ v, exCiC2.enabled = some v ∧ v ≠ "" ∧ pyStrip v = "FALSE" :=
  enabled_filter_spec exCiC2 "0" "10" "file:///a.mov" 0 10 rfl rfl rfl
    (by with_unfolding_all rfl) (by with_unfolding_all rfl)

/-! ### Claim C3: acceptance test in the metadata priority chain -/

theorem metaFirst_some_shape (query : String → Option String)
    (ts : List String) (v : String) (h : metaFirst query ts = some v) :
    v ≠ "" ∧ pyEndsWith v ":" = false ∧ pyStartsWith v "0000" = false := by
  induction ts with
  | nil => exact absurd h (by simp [metaFirst])
  | cons t rest ih =>
    rw [metaFirst] at h
    by_cases h1 : (((query t).getD "" != "")
        && !pyEndsWith ((query t).getD "") ":") = true
    · rw [if_pos h1] at h
      by_cases h2 : (pyStartsWith ((query t).getD "") "0000"
          || (query t).getD "" == "0000:00:00 00:00:00"
          || (query t).getD "" == "0000-00-00 00:00:00") = true
      · rw [if_pos h2] at h
        exact ih h
      · rw [if_neg h2] at h
        obtain rfl : (query t).getD "" = v := by
          exact Option.some.inj h
        simp only [Bool.and_eq_true, bne_iff_ne, Bool.not_eq_true',
          Bool.or_eq_true, beq_iff_eq] at h1 h2
        push_neg at h2
        exact ⟨h1.1, h1.2, by simpa using h2.1.1⟩
    · rw [if_neg h1] at h
      exact ih h

/-- C3 (amended): a value returned by the external query at some position of
the chain is accepted there (returned as the result, short circuiting the
remaining fields) if and only if it is nonempty, does NOT end in a colon
(any colon, not only the 0000 colon ending of the claim), and does NOT
start with 0000 (which subsumes the two all zero date forms the source also
compares against); every other nonempty value outside this larger
degenerate set is accepted. -/
theorem exif_accept_spec :
    ∀ (query : String → Option String) (t : String) (ts : List String)
      (out : String), query t = some out →
      (metaFirst query (t :: ts) = some out ↔
        (out ≠ "" ∧ pyEndsWith out ":" = false
          ∧ pyStartsWith out "0000" = false)) := by
  intro query t ts out hq
  constructor
  · intro h
    rw [metaFirst, hq] at h
    simp only [Option.getD_some] at h
    by_cases h1 : ((out != "") && !pyEndsWith out ":") = true
    · rw [if_pos h1] at h
      by_cases h2 : (pyStartsWith out "0000" || out == "0000:00:00 00:00:00"
          || out == "0000-00-00 00:00:00") = true
      · rw [if_pos h2] at h
        exact metaFirst_some_shape query ts out h
      · simp only [Bool.and_eq_true, bne_iff_ne, Bool.not_eq_true'] at h1
        simp only [Bool.or_eq_true, beq_iff_eq] at h2
        push_neg at h2
        exact ⟨h1.1, h1.2, by simpa using h2.1.1⟩
    · rw [if_neg h1] at h
      exact metaFirst_some_shape query ts out h
  · rintro ⟨hne, hend, hstart⟩
    rw [metaFirst, hq]
    simp only [Option.getD_some]
    have h1 : ((out != "") && !pyEndsWith out ":") = true := by
      simp [bne_iff_ne, hne, hend]
    rw [if_pos h1]
    have e1 : (out == "0000:00:00 00:00:00") = false := by
      by_cases h : out = "0000:00:00 00:00:00"
      · subst h
        exact absurd hstart (by decide)
      · simp [h]
    have e2 : (out == "0000-00-00 00:00:00") = false := by
      by_cases h : out = "0000-00-00 00:00:00"
      · subst h
        exact absurd hstart (by decide)
      · simp [h]
    rw [if_neg (by rw [hstart, e1, e2]; simp)]

/-- C3 counterexample to the claim as stated: the values 2025: (ends in a
colon but not in 0000:) and 0000-01-01 10:00:00 (starts with 0000 but is
neither the all zero date nor 0000: terminated) lie outside the degenerate
set of the claim, so the claim says they are accepted; the chain rejects
both at every position and yields nothing. -/
theorem exif_accept_counterexample :
    claimAccepted "2025:" = true
    ∧ metaFirst (fun _ => some "2025:") exifTags = none
    ∧ claimAccepted "0000-01-01 10:00:00" = true
    ∧ metaFirst (fun _ => some "0000-01-01 10:00:00") exifTags = none := by
  refine ⟨?_, ?_, ?_, ?_⟩ <;> with_unfolding_all rfl

/-- C3 witness: an ordinary value is accepted at the head of the chain. -/
theorem exif_accept_spec_witness :
    metaFirst (fun _ => some "2025-06-01 12:00:00+0000")
      ("QuickTime:CreateDate" :: ["QuickTime:MediaCreateDate"])
      = some "2025-06-01 12:00:00+0000" :=
  (exif_accept_spec (fun _ => some "2025-06-01 12:00:00+0000")
    "QuickTime:CreateDate" ["QuickTime:MediaCreateDate"]
    "2025-06-01 12:00:00+0000" rfl).mpr
    ⟨by decide, by with_unfolding_all rfl, by with_unfolding_all rfl⟩

/-! ### Claim C4: display name fallback -/

/-- C4 (amended): for every surviving clip the display name is the file
reference name when present, and the empty string when the file element has
no name; the clip items own name is consulted only when the file element
itself is absent, and such items never survive because they have no path. -/
theorem display_name_spec :
    (∀ (ci : ClipItem) (c : Clip), procClip ci = some c →
        ∃ fr, ci.file = some fr ∧ c.name = (fr.name).getD "")
    ∧ (∀ ci : ClipItem, ci.file = none → procClip ci = none) := by
  constructor
  · intro ci c h
    by_cases hen : enabledTest ci.enabled = true
    · rw [procClip, if_pos hen] at h
      exact absurd h (by simp)
    · rw [procClip, if_neg hen] at h
      cases hfe : ci.file with
      | none =>
        rw [hfe] at h
        simp only [Option.bind] at h
        cases hs : ci.start <;> cases he : ci.stop <;>
          simp [hs, he] at h
      | some fr =>
        refine ⟨fr, rfl, ?_⟩
        rw [hfe] at h
        simp only [Option.bind] at h
        cases hs : ci.start with
        | none => simp [hs] at h
        | some s =>
          cases he : ci.stop with
          | none => simp [hs, he] at h
          | some e =>
            cases hpu : fr.pathurl with
            | none => simp [hs, he, hpu] at h
            | some pu =>
              rw [hs, he, hpu] at h
              simp only [] at h
              cases hsi : pyParseInt s with
              | none => simp [hsi] at h
              | some si =>
                cases hei : pyParseInt e with
                | none => simp [hsi, hei] at h
                | some ei =>
                  rw [hsi, hei] at h
                  simp only [Option.some.injEq] at h
                  rw [← h]
  · intro ci hf
    rw [procClip, hf]
    by_cases hen : enabledTest ci.enabled = true
    · rw [if_pos hen]
    · rw [if_neg hen]
      simp only [Option.bind]
      cases ci.start <;> cases ci.stop <;> rfl

/-- C4 counterexample to the claim as stated: the file reference is present
but has no name, and the clip item carries its own name; the claim says the
display name falls back to that clip item name, but the code only consults
the clip item name when the file element is absent, so the display name is
the empty string. -/
theorem display_name_counterexample :
    exCiC4.file.bind (fun fr => fr.name) = none
    ∧ exCiC4.name = some "clip item name"
    ∧ (procClip exCiC4).map (fun c => c.name) = some ""
    ∧ ("" : String) ≠ "clip item name" := by
  refine ⟨rfl, rfl, ?_, by decide⟩
  with_unfolding_all rfl

/-- C4 witness: the amended statement applied to the clip above. -/
theorem display_name_spec_witness :
    ∃ fr, exCiC4.file = some fr
      ∧ (Clip.mk 0 10 "/v/c.mov" "").name = (fr.name).getD "" :=
  display_name_spec.1 exCiC4 (Clip.mk 0 10 "/v/c.mov" "")
    (by with_unfolding_all rfl)

/-! ### Claim C7: filename pattern precedence and emitted form -/

/-- C7: when pattern A matches the base name, the fallback result is the
A groups rendered as YYYY-MM-DD HH:MM:00+0000 regardless of pattern B
(pattern B is never consulted); when A does not match and B does, the
result is the B groups reordered to YYYY-MM-DD HH:MM:00+0000. In both
cases the matched minutes are preserved and the matched seconds are
replaced by 00. -/
theorem filename_pattern_spec :
    (∀ (fn y mo d hh mi se : String),
        searchA fn.data = some (y, mo, d, hh, mi, se) →
        filename_fallback fn =
          some (y ++ "-" ++ mo ++ "-" ++ d ++ " " ++ hh ++ ":" ++ mi
            ++ ":00+0000"))
    ∧ (∀ (fn mo d y hh mi se : String),
        searchA fn.data = none →
        searchB fn.data = some (mo, d, y, hh, mi, se) →
        filename_fallback fn =
          some (y ++ "-" ++ mo ++ "-" ++ d ++ " " ++ hh ++ ":" ++ mi
            ++ ":00+0000")) := by
  constructor
  · intro fn y mo d hh mi se h
    rw [filename_fallback, h]
  · intro fn mo d y hh mi se ha hb
    rw [filename_fallback, ha, hb]

/-- C7 witness: a name containing matches for both patterns resolves by
pattern A, and a name matching only pattern B resolves by pattern B with
the date fields reordered. -/
theorem filename_pattern_spec_witness :
    searchB ("2025-01-02 03-04-05 01-02-2025 06-07-08").data
      = some ("01", "02", "2025", "06", "07", "08")
    ∧ filename_fallback "2025-01-02 03-04-05 01-02-2025 06-07-08"
      = some ("2025" ++ "-" ++ "01" ++ "-" ++ "02" ++ " " ++ "03" ++ ":"
          ++ "04" ++ ":00+0000")
    ∧ filename_fallback "ScreenRecording_10-01-2025 07-20-37_1.mp4"
      = some ("2025" ++ "-" ++ "10" ++ "-" ++ "01" ++ " " ++ "07" ++ ":"
          ++ "20" ++ ":00+0000") := by
  refine ⟨by with_unfolding_all rfl, ?_, ?_⟩
  · exact filename_pattern_spec.1 "2025-01-02 03-04-05 01-02-2025 06-07-08"
      "2025" "01" "02" "03" "04" "05" (by with_unfolding_all rfl)
  · exact filename_pattern_spec.2 "ScreenRecording_10-01-2025 07-20-37_1.mp4"
      "10" "01" "2025" "07" "20" "37" (by with_unfolding_all rfl)
      (by with_unfolding_all rfl)

/-! ### Claim C8: the timestamp normalizer -/

/-- C8: the normalizer returns none exactly when none of the four accepted
shapes parses the input (the shapes are tried in the fixed order with
seconds and offset, without seconds with offset, with seconds naive,
without seconds naive); on a successful parse it returns the local
rendering of the parsed value; a naive parsed value renders identically to
the same value stamped with the explicit UTC offset zero; and the example
2025-01-15 10:30:45+0000 at local offset zero normalizes to
2025-01-15 10:30. -/
theorem to_local_spec :
    (∀ (off : ℤ) (s : String),
        to_local_no_seconds off s = none ↔
          (parseFmt1 s = none ∧ parseFmt2 s = none ∧ parseFmt3 s = none
            ∧ parseFmt4 s = none))
    ∧ (∀ (off : ℤ) (s : String) (dt : PyDateTime), tryFormats s = some dt →
        to_local_no_seconds off s = some (localRender off dt))
    ∧ (∀ (off : ℤ) (dt : PyDateTime), dt.tzSec = none →
        localRender off dt = localRender off { dt with tzSec := some 0 })
    ∧ to_local_no_seconds 0 "2025-01-15 10:30:45+0000"
        = some "2025-01-15 10:30" := by
  refine ⟨?_, ?_, ?_, by with_unfolding_all rfl⟩
  · intro off s
    by_cases hs : s = ""
    · subst hs
      constructor
      · intro _
        exact ⟨by with_unfolding_all rfl, by with_unfolding_all rfl,
          by with_unfolding_all rfl, by with_unfolding_all rfl⟩
      · intro _
        rfl
    · simp only [to_local_no_seconds, if_neg hs]
      cases h1 : parseFmt1 s <;> cases h2 : parseFmt2 s <;>
        cases h3 : parseFmt3 s <;> cases h4 : parseFmt4 s <;>
        simp [tryFormats, h1, h2, h3, h4]
  · intro off s dt h
    have hs : s ≠ "" := by
      intro he
      subst he
      rw [show tryFormats "" = none by with_unfolding_all rfl] at h
      exact Option.noConfusion h
    rw [to_local_no_seconds, if_neg hs, h]
  · intro off dt h
    simp [localRender, dtToSec, h]

/-- C8 witness: the parse and render statements applied to a concrete naive
input. -/
theorem to_local_spec_witness :
    to_local_no_seconds 0 "2025-06-01 12:00:00"
      = some (localRender 0 ⟨2025, 6, 1, 12, 0, 0, none⟩)
    ∧ localRender 7 ⟨2025, 6, 1, 12, 0, 0, none⟩
      = localRender 7 ⟨2025, 6, 1, 12, 0, 0, some 0⟩ := by
  constructor
  · exact to_local_spec.2.1 0 "2025-06-01 12:00:00" ⟨2025, 6, 1, 12, 0, 0, none⟩
      (by with_unfolding_all rfl)
  · exact to_local_spec.2.2.1 7 ⟨2025, 6, 1, 12, 0, 0, none⟩ rfl

/-! ### Claim C9: caption fallback chain -/

theorem str_append_ne_empty_left (a b : String) (h : a ≠ "") : a ++ b ≠ "" := by
  intro he
  have hl := congrArg String.length he
  rw [String.length_append] at hl
  have h0 : ("" : String).length = 0 := rfl
  rw [h0] at hl
  have : a.length = 0 := by omega
  exact h ((str_length_eq_zero_iff a).mp this)

theorem pyFmtD_ne_empty (w : ℕ) (hw : 1 ≤ w) (n : ℤ) : pyFmtD w n ≠ "" := by
  rw [pyFmtD]
  split
  · exact str_append_ne_empty_left _ _ (by decide)
  · intro h
    have hl := congrArg String.length h
    rw [zeroPad, String.length_append] at hl
    have h0 : ("" : String).length = 0 := rfl
    have h1 : (String.mk (List.replicate (w - (toString n.toNat).length) '0')).length
        = w - (toString n.toNat).length := by
      show (List.replicate (w - (toString n.toNat).length) '0').length = _
      exact List.length_replicate _ _
    rw [h0, h1] at hl
    omega

theorem to_local_some_ne_empty (off : ℤ) (s l : String)
    (h : to_local_no_seconds off s = some l) : l ≠ "" := by
  rw [to_local_no_seconds] at h
  by_cases hs : s = ""
  · rw [if_pos hs] at h
    exact absurd h (by simp)
  · rw [if_neg hs] at h
    cases ht : tryFormats s with
    | none => rw [ht] at h; exact absurd h (by simp)
    | some dt =>
      rw [ht] at h
      simp only [Option.some.injEq] at h
      rw [← h, localRender, fmtYMDHM]
      exact str_append_ne_empty_right _ _ (pyFmtD_ne_empty 2 (by norm_num) _)

theorem filename_fallback_ne_empty (fn v : String)
    (h : filename_fallback fn = some v) : v ≠ "" := by
  rw [filename_fallback] at h
  cases ha : searchA fn.data with
  | some g =>
    obtain ⟨y, mo, d, hh, mi, se⟩ := g
    rw [ha] at h
    simp only [Option.some.injEq] at h
    rw [← h]
    exact str_append_ne_empty_right _ _ (by decide)
  | none =>
    rw [ha] at h
    cases hb : searchB fn.data with
    | some g =>
      obtain ⟨mo, d, y, hh, mi, se⟩ := g
      rw [hb] at h
      simp only [Option.some.injEq] at h
      rw [← h]
      exact str_append_ne_empty_right _ _ (by decide)
    | none => rw [hb] at h; exact absurd h (by simp)

theorem run_exiftool_ne_empty (q : String → String → Option String)
    (p d : String) (h : run_exiftool q p = some d) : d ≠ "" := by
  rw [run_exiftool] at h
  cases hm : metaFirst (fun t => q t p) exifTags with
  | some v =>
    rw [hm] at h
    simp only [Option.some.injEq] at h
    rw [← h]
    exact (metaFirst_some_shape _ _ _ hm).1
  | none =>
    rw [hm] at h
    exact filename_fallback_ne_empty _ _ h

/-- C9: when the resolver yields nothing the caption is the NO-DATE marker
plus the display name; when it yields a raw string that the normalizer
rejects, the caption is the raw string itself, never the marker; when
normalization succeeds the caption is the normalized string; and the entry
list always has exactly one entry per surviving clip, so no failure drops a
cue. -/
theorem caption_fallback_spec :
    (∀ (q : String → String → Option String) (off : ℤ) (c : Clip),
        run_exiftool q c.path = none →
        clip_caption q off c = "[NO-DATE] " ++ c.name)
    ∧ (∀ (q : String → String → Option String) (off : ℤ) (c : Clip)
        (d : String), run_exiftool q c.path = some d →
        to_local_no_seconds off d = none → clip_caption q off c = d)
    ∧ (∀ (q : String → String → Option String) (off : ℤ) (c : Clip)
        (d l : String), run_exiftool q c.path = some d →
        to_local_no_seconds off d = some l → clip_caption q off c = l)
    ∧ (∀ (q : String → String → Option String) (off : ℤ) (fps : ℚ)
        (cs : List Clip), (buildEntries q off fps cs).length = cs.length) := by
  refine ⟨?_, ?_, ?_, ?_⟩
  · intro q off c h
    simp only [clip_caption, h]
  · intro q off c d h hn
    simp only [clip_caption, h]
    rw [if_neg (run_exiftool_ne_empty q c.path d h), hn]
  · intro q off c d l h hl
    simp only [clip_caption, h]
    rw [if_neg (run_exiftool_ne_empty q c.path d h), hl]
    simp only []
    rw [if_neg (to_local_some_ne_empty off d l hl)]
  · intro q off fps cs
    simp [buildEntries]

/-- C9 witness: the three caption cases at concrete oracles. -/
theorem caption_fallback_spec_witness :
    clip_caption (fun _ _ => none) 0 (Clip.mk 0 10 "clip.mov" "nm")
      = "[NO-DATE] " ++ "nm"
    ∧ clip_caption (fun _ _ => some "June first") 0
        (Clip.mk 0 10 "clip.mov" "nm") = "June first"
    ∧ clip_caption (fun _ _ => some "2025-06-01 12:00:00+0000") 0
        (Clip.mk 0 10 "clip.mov" "nm") = "2025-06-01 12:00" := by
  refine ⟨?_, ?_, ?_⟩
  · exact caption_fallback_spec.1 (fun _ _ => none) 0 (Clip.mk 0 10 "clip.mov" "nm")
      (by with_unfolding_all rfl)
  · exact caption_fallback_spec.2.1 (fun _ _ => some "June first") 0
      (Clip.mk 0 10 "clip.mov" "nm") "June first"
      (by with_unfolding_all rfl) (by with_unfolding_all rfl)
  · exact caption_fallback_spec.2.2.1 (fun _ _ => some "2025-06-01 12:00:00+0000")
      0 (Clip.mk 0 10 "clip.mov" "nm") "2025-06-01 12:00:00+0000"
      "2025-06-01 12:00" (by with_unfolding_all rfl) (by with_unfolding_all rfl)

/-! ### Claim C10: terminal failures and the single output write -/

/-- C10: a missing argument, an unparseable document, or zero surviving
clips each terminate with no file write at all, so any pre existing file at
the derived path is left unchanged (applying the empty write list is the
identity on every file system); on success exactly one write is performed,
to the derived path, whose content is built from the entries of every
gathered clip; the exit codes are 1 for the missing argument and 2 for zero
clips. -/
theorem main_effects_spec :
    (∀ (doc : Option SeqDoc) (q : String → String → Option String) (off : ℤ)
        (argv : List String), argv.length < 2 →
        pyMain argv doc q off = (.usageError, []))
    ∧ (∀ (q : String → String → Option String) (off : ℤ)
        (argv : List String), 2 ≤ argv.length →
        pyMain argv none q off = (.parseError, []))
    ∧ (∀ (d : SeqDoc) (q : String → String → Option String) (off : ℤ)
        (argv : List String), 2 ≤ argv.length → gather_v1_clips d = [] →
        pyMain argv (some d) q off = (.noClipsError, []))
    ∧ (∀ (d : SeqDoc) (q : String → String → Option String) (off : ℤ)
        (argv : List String), 2 ≤ argv.length → gather_v1_clips d ≠ [] →
        pyMain argv (some d) q off = (.success,
          [(outPath (argv.getD 1 ""),
            srtContent (buildEntries q off (get_sequence_rate d.rate)
              (gather_v1_clips d)))]))
    ∧ (∀ (argv : List String) (doc : Option SeqDoc)
        (q : String → String → Option String) (off : ℤ)
        (fs : String → Option String),
        (pyMain argv doc q off).1 ≠ .success →
        applyWrites (pyMain argv doc q off).2 fs = fs)
    ∧ mainExitCode .usageError = some 1
    ∧ mainExitCode .noClipsError = some 2 := by
  refine ⟨?_, ?_, ?_, ?_, ?_, rfl, rfl⟩
  · intro doc q off argv h
    rw [pyMain, if_pos h]
  · intro q off argv h
    rw [pyMain, if_neg (by omega)]
  · intro d q off argv h hg
    rw [pyMain, if_neg (by omega)]
    simp [hg]
  · intro d q off argv h hg
    rw [pyMain, if_neg (by omega)]
    simp only []
    rw [if_neg hg]
  · intro argv doc q off fs h
    by_cases h2 : argv.length < 2
    · rw [pyMain, if_pos h2]
      rfl
    · cases doc with
      | none =>
        rw [pyMain, if_neg h2]
        rfl
      | some d =>
        by_cases hg : gather_v1_clips d = []
        · rw [pyMain, if_neg h2]
          simp [hg, applyWrites]
        · exfalso
          apply h
          rw [pyMain, if_neg h2]
          simp only []
          rw [if_neg hg]
/-- C10 witness: the terminal and success cases evaluated at concrete
inputs. -/
theorem main_effects_spec_witness :
    pyMain ["prog"] (some exDocC2b) (fun _ _ => none) 0 = (.usageError, [])
    ∧ pyMain ["prog", "seq.xml"] none (fun _ _ => none) 0 = (.parseError, [])
    ∧ pyMain ["prog", "seq.xml"] (some exDocEmpty) (fun _ _ => none) 0
        = (.noClipsError, [])
    ∧ pyMain ["prog", "seq.xml"] (some exDocC2b) (fun _ _ => none) 0
        = (.success, [(outPath (["prog", "seq.xml"].getD 1 ""),
            srtContent (buildEntries (fun _ _ => none) 0
              (get_sequence_rate exDocC2b.rate)
              (gather_v1_clips exDocC2b)))])
    ∧ applyWrites (pyMain ["prog", "seq.xml"] none (fun _ _ => none) 0).2
        (fun _ => none) = (fun _ => none) := by
  refine ⟨?_, ?_, ?_, ?_, ?_⟩
  · exact main_effects_spec.1 (some exDocC2b) (fun _ _ => none) 0 ["prog"]
      (by decide)
  · exact main_effects_spec.2.1 (fun _ _ => none) 0 ["prog", "seq.xml"]
      (by decide)
  · exact main_effects_spec.2.2.1 exDocEmpty (fun _ _ => none) 0
      ["prog", "seq.xml"] (by decide) (by with_unfolding_all rfl)
  · exact main_effects_spec.2.2.2.1 exDocC2b (fun _ _ => none) 0
      ["prog", "seq.xml"] (by decide)
      (by with_unfolding_all decide)
  · exact main_effects_spec.2.2.2.2.1 ["prog", "seq.xml"] none
      (fun _ _ => none) 0 (fun _ => none) (by decide)
